import Mathlib

/-! Shallow embedding of engine.go from ion-sdk-go: a session-to-client
registry guarded by a reader-writer lock, together with the periodic
statistics-aggregation loop.  Go maps are modelled as association lists,
nil pointers as `Option`, and the lock operations and the calls into the
external Client capabilities (teardown and bandwidth sampling) as an event
trace emitted by each operation. -/

/-- Modelled from the spec: the engine configuration.  Its definition lives
outside engine.go; the code under study stores it in the Engine and never
reads it, so it is opaque here. -/
structure Config

/-- Modelled from the spec: an opaque client connection handle carrying a
session identifier, a within-session client identifier, and a bandwidth
sampling capability mapping an interval in seconds to the pair
(received, sent) in KB/s.  The teardown capability is an external effect
and is recorded in the event trace of each operation rather than held as
a field. -/
structure Client where
  sid : String
  uid : String
  getBandWidth : Int → Int × Int

/-- Events a registry operation performs, in program order: taking and
releasing the exclusive or shared lock, and the calls into the external
Client capabilities (Close, getBandWidth). -/
inductive Ev where
  | lock
  | unlock
  | rlock
  | runlock
  | closeCall (c : Client)
  | bwCall (c : Client)

/-- Errors returned by the registry.  `invalidSessID` models the
`errInvalidSessID` value (modelled from the spec, which names it
`UnknownSession`; its definition lives outside engine.go).  `clientNil`
models the error value built by the nil check inside AddClient. -/
inductive EngErr where
  | clientNil
  | invalidSessID
deriving DecidableEq, Repr

/-- Association-list model of Go map indexing: the value of the first
binding of a key, `none` when the key is absent (the Go zero value). -/
def alookup {α : Type} : List (String × α) → String → Option α
  | [], _ => none
  | (k, v) :: t, key => if key = k then some v else alookup t key

/-- Association-list model of Go map deletion: removes every binding of
the key. -/
def aerase {α : Type} : List (String × α) → String → List (String × α)
  | [], _ => []
  | (k, v) :: t, key => if k = key then aerase t key else (k, v) :: aerase t key

/-- Association-list model of Go map assignment: binds the key to the
value, replacing any prior binding. -/
def ainsert {α : Type} (m : List (String × α)) (key : String) (v : α) :
    List (String × α) :=
  (key, v) :: aerase m key

/-- Inner map of one session: client id to client pointer; `none` models a
nil pointer stored at the key. -/
abbrev InnerMap := List (String × Option Client)

/-- Aggregate-statistics record, the Go struct `stat` (engine.go 18-22). -/
structure stat where
  clients : Int
  totalRecvBW : Int
  totalSendBW : Int
deriving DecidableEq, Repr

/-- The Engine state (engine.go 25-31): configuration, the session-to-client
registry, and the stats record. -/
structure Engine where
  cfg : Config
  clients : List (String × InnerMap)
  stats : stat

/-- NewEngine (engine.go 34-40): fresh engine with an empty registry; the
`stats` field is left at the Go zero value. -/
def NewEngine (cfg : Config) : Engine :=
  { cfg := cfg, clients := [], stats := ⟨0, 0, 0⟩ }

/-- Outcome of one registry operation: whether it panicked (nil-pointer
dereference), the engine state when the call returns (for a panic: the
state at the moment the panic occurred), the returned error, and the
event trace of the call. -/
structure OpOut where
  panicked : Bool
  engine : Engine
  err : Option EngErr
  trace : List Ev

/-- AddClient (engine.go 46-61).  A nil client argument panics on the
`c.sid` field dereference at line 49, before the map is touched; the
deferred Unlock still runs.  For a non-nil client the inner map is created
when absent and the client stored; the `c == nil` check at line 54 cannot
fire on this path, so no error is returned and no teardown is invoked. -/
def AddClient (e : Engine) (c : Option Client) : OpOut :=
  match c with
  | none =>
      { panicked := true, engine := e, err := none, trace := [Ev.lock, Ev.unlock] }
  | some cl =>
      let m0 := e.clients
      let m1 := if (alookup m0 cl.sid).isNone then ainsert m0 cl.sid [] else m0
      let inner := (alookup m1 cl.sid).getD []
      let m2 := ainsert m1 cl.sid (ainsert inner cl.uid (some cl))
      { panicked := false, engine := { e with clients := m2 }, err := none,
        trace := [Ev.lock, Ev.unlock] }

/-- Go `delete(e.clients[s], u)`: removes key `u` from the inner map stored
at session `s`; when session `s` is absent the indexed map is nil and the
delete is a no-op. -/
def delInner (m : List (String × InnerMap)) (s u : String) :
    List (String × InnerMap) :=
  match alookup m s with
  | none => m
  | some inner => ainsert m s (aerase inner u)

/-- DelClient (engine.go 64-78).  Unknown session: returns errInvalidSessID
with no mutation.  Key bound to a non-nil client: the if-init at line 70
shadows `c` with the stored client, so the `delete(e.clients[c.sid], c.uid)`
at line 71 uses the STORED client's own fields (not the argument's key);
then the lock is released and only then the stored client's Close invoked.
Otherwise (key absent, or bound to a nil pointer): unlock and return nil.
A nil argument panics at the `c.sid` dereference while the lock is held
(this function has no deferred Unlock). -/
def DelClient (e : Engine) (c : Option Client) : OpOut :=
  match c with
  | none =>
      { panicked := true, engine := e, err := none, trace := [Ev.lock] }
  | some cl =>
      match alookup e.clients cl.sid with
      | none =>
          { panicked := false, engine := e, err := some EngErr.invalidSessID,
            trace := [Ev.lock, Ev.unlock] }
      | some inner =>
          match alookup inner cl.uid with
          | some (some stored) =>
              { panicked := false,
                engine := { e with clients := delInner e.clients stored.sid stored.uid },
                err := none,
                trace := [Ev.lock, Ev.unlock, Ev.closeCall stored] }
          | _ =>
              { panicked := false, engine := e, err := none,
                trace := [Ev.lock, Ev.unlock] }

/-- RemoveClient (engine.go 80-90): same lookup and removal semantics as
DelClient — including the shadowed `c` at line 86, so the delete at line 87
uses the stored client's own fields — but it never invokes Close; Unlock
is deferred, so it also runs on the nil-argument panic path. -/
def RemoveClient (e : Engine) (c : Option Client) : OpOut :=
  match c with
  | none =>
      { panicked := true, engine := e, err := none, trace := [Ev.lock, Ev.unlock] }
  | some cl =>
      match alookup e.clients cl.sid with
      | none =>
          { panicked := false, engine := e, err := some EngErr.invalidSessID,
            trace := [Ev.lock, Ev.unlock] }
      | some inner =>
          match alookup inner cl.uid with
          | some (some stored) =>
              { panicked := false,
                engine := { e with clients := delInner e.clients stored.sid stored.uid },
                err := none,
                trace := [Ev.lock, Ev.unlock] }
          | _ =>
              { panicked := false, engine := e, err := none,
                trace := [Ev.lock, Ev.unlock] }

/-- The figures carried by one report of the Stats loop. -/
structure StatsReport where
  clients : Nat
  totalRecvBW : Int
  totalSendBW : Int
deriving DecidableEq, Repr

/-- Effect of one iteration of the default branch of the Stats loop:
either skip straight to the next iteration (no report, no sleep), or log
a report and then sleep for the given number of seconds. -/
inductive IterEffect where
  | skip
  | report (r : StatsReport) (sleepSeconds : Int)

/-- Result of one Stats iteration: its effect and its event trace. -/
structure StatsOut where
  effect : IterEffect
  trace : List Ev

/-- One bandwidth-accumulation step of the inner Stats loop
(engine.go 114-121): a nil client is skipped; otherwise getBandWidth is
called with the cycle as the interval and both figures are accumulated. -/
def bwStep (cycle : Int) (acc : Int × Int × List Ev) (oc : Option Client) :
    Int × Int × List Ev :=
  match oc with
  | none => acc
  | some c =>
      (acc.1 + (c.getBandWidth cycle).1, acc.2.1 + (c.getBandWidth cycle).2,
       acc.2.2 ++ [Ev.bwCall c])

/-- One iteration of the default (not-cancelled) branch of Stats
(engine.go 98-129): under the read lock, if the registry has zero sessions
skip to the next iteration without reporting or sleeping; otherwise count
the clients by summing inner-map sizes, sample every non-nil client's
bandwidth with `cycle` as the interval, release the read lock, log the
report and sleep `cycle` seconds. -/
def statsIter (e : Engine) (cycle : Int) : StatsOut :=
  if e.clients.length = 0 then
    { effect := IterEffect.skip, trace := [Ev.rlock, Ev.runlock] }
  else
    let n := e.clients.foldl (fun acc p => acc + p.2.length) 0
    let acc := e.clients.foldl
      (fun acc p => p.2.foldl (fun a q => bwStep cycle a q.2) acc)
      ((0 : Int), (0 : Int), ([] : List Ev))
    { effect := IterEffect.report
        { clients := n, totalRecvBW := acc.1, totalSendBW := acc.2.1 } cycle,
      trace := [Ev.rlock] ++ acc.2.2 ++ [Ev.runlock] }

/-- GetStat (engine.go 133-135): projections of the stats record. -/
def GetStat (e : Engine) : Int × Int × Int :=
  (e.stats.clients, e.stats.totalRecvBW, e.stats.totalSendBW)

/-- The teardown calls recorded in an event trace, in order. -/
def closesOf (tr : List Ev) : List Client :=
  tr.filterMap fun ev =>
    match ev with
    | Ev.closeCall c => some c
    | _ => none

/-- Whether an event trace performs a call into an external Client
capability while at least one lock is held; `d` counts the locks currently
held when the trace starts. -/
def callsInsideLock : List Ev → Nat → Bool
  | [], _ => false
  | Ev.lock :: tr, d => callsInsideLock tr (d + 1)
  | Ev.rlock :: tr, d => callsInsideLock tr (d + 1)
  | Ev.unlock :: tr, d => callsInsideLock tr (d - 1)
  | Ev.runlock :: tr, d => callsInsideLock tr (d - 1)
  | Ev.closeCall _ :: tr, d => decide (0 < d) || callsInsideLock tr d
  | Ev.bwCall _ :: tr, d => decide (0 < d) || callsInsideLock tr d

/-- The non-nil clients stored in one session's inner map, in order. -/
def innerClients (inner : InnerMap) : List Client :=
  inner.filterMap fun q => q.2

/-- The non-nil clients stored in the whole registry, in order. -/
def allClients : List (String × InnerMap) → List Client
  | [] => []
  | p :: t => innerClients p.2 ++ allClients t

/-- Stated from the spec's words: the total of the received-bandwidth
samples of a list of clients, each sampled with `cycle` as the interval. -/
def sumRecvSamples (cycle : Int) (cs : List Client) : Int :=
  (cs.map fun c => (c.getBandWidth cycle).1).sum

/-- Stated from the spec's words: the total of the sent-bandwidth samples
of a list of clients, each sampled with `cycle` as the interval. -/
def sumSendSamples (cycle : Int) (cs : List Client) : Int :=
  (cs.map fun c => (c.getBandWidth cycle).2).sum

/-- A registry operation, for reasoning about the engine states reachable
by any sequence of calls. -/
inductive Op where
  | add (c : Option Client)
  | del (c : Option Client)
  | remove (c : Option Client)
  | statsOp (cycle : Int)

/-- Applies one operation to the engine; `none` when the call panics.  One
Stats iteration reads the registry but never writes the engine (in
particular it never writes `stats`), so it leaves the state unchanged. -/
def applyOp (e : Engine) : Op → Option Engine
  | Op.add c => if (AddClient e c).panicked then none else some (AddClient e c).engine
  | Op.del c => if (DelClient e c).panicked then none else some (DelClient e c).engine
  | Op.remove c => if (RemoveClient e c).panicked then none else some (RemoveClient e c).engine
  | Op.statsOp _ => some e

/-- Runs a sequence of operations from a starting engine state; `none` as
soon as one of them panics. -/
def runOps : Engine → List Op → Option Engine
  | e, [] => some e
  | e, op :: rest =>
      match applyOp e op with
      | none => none
      | some e2 => runOps e2 rest

/-- Lookup through both levels of the registry: the pointer stored at the
(session, client) key, when both levels have the key. -/
def alookup2 (m : List (String × InnerMap)) (s u : String) : Option (Option Client) :=
  match alookup m s with
  | none => none
  | some inner => alookup inner u

/-- Concrete client for exercising DelClient on a present key. -/
def cw2 : Client := { sid := "s2", uid := "u2", getBandWidth := fun _ => (7, 9) }

/-- Concrete inner map holding `cw2`. -/
def inner2w : InnerMap := [("u2", some cw2)]

/-- Concrete engine whose registry holds exactly `cw2`. -/
def eng2 : Engine := { cfg := {}, clients := [("s2", inner2w)], stats := ⟨0, 0, 0⟩ }

/-- Concrete client whose own fields (x2, y2) differ from the registry key
it is stored under. -/
def cmis : Client := { sid := "x2", uid := "y2", getBandWidth := fun _ => (0, 0) }

/-- Concrete non-nil argument carrying the key (s2m, u2m). -/
def cargMis : Client := { sid := "s2m", uid := "u2m", getBandWidth := fun _ => (1, 1) }

/-- Concrete engine storing `cmis` under the key (s2m, u2m), which differs
from the stored client's own fields. -/
def engMis : Engine :=
  { cfg := {}, clients := [("s2m", [("u2m", some cmis)])], stats := ⟨0, 0, 0⟩ }

/-- Concrete client whose session is unknown to the empty registry. -/
def c3c : Client := { sid := "s3", uid := "u3", getBandWidth := fun _ => (0, 0) }

/-- Concrete client of session A reporting (10, 5) KB/s. -/
def c4c1 : Client := { sid := "A", uid := "c1", getBandWidth := fun _ => (10, 5) }

/-- Concrete client of session A reporting (20, 15) KB/s. -/
def c4c2 : Client := { sid := "A", uid := "c2", getBandWidth := fun _ => (20, 15) }

/-- Concrete client of session B reporting (0, 0) KB/s. -/
def c4c3 : Client := { sid := "B", uid := "c3", getBandWidth := fun _ => (0, 0) }

/-- Concrete registry with sessions A holding c1, c2 and B holding c3. -/
def engineAB : Engine :=
  { cfg := {},
    clients := [("A", [("c1", some c4c1), ("c2", some c4c2)]), ("B", [("c3", some c4c3)])],
    stats := ⟨0, 0, 0⟩ }

/-- Concrete client initially stored at key (s5, u5). -/
def cOld : Client := { sid := "s5", uid := "u5", getBandWidth := fun _ => (1, 2) }

/-- Concrete replacement client carrying the same key (s5, u5). -/
def cNew : Client := { sid := "s5", uid := "u5", getBandWidth := fun _ => (3, 4) }

/-- Concrete engine whose registry holds `cOld` at (s5, u5). -/
def eng5 : Engine := { cfg := {}, clients := [("s5", [("u5", some cOld)])], stats := ⟨0, 0, 0⟩ }

/-- Concrete client used by the reachable-state sequence below. -/
def cw6 : Client := { sid := "s6", uid := "u6", getBandWidth := fun _ => (2, 3) }

/-- Concrete operation sequence touching every registry operation. -/
def opsW : List Op :=
  [Op.add (some cw6), Op.statsOp 1, Op.del (some cw6), Op.remove (some cw6)]

/-- The engine state reached by running `opsW` from a fresh engine. -/
def engW : Engine := { cfg := {}, clients := [("s6", [])], stats := ⟨0, 0, 0⟩ }

/-- Concrete client stored at key (s8, u8), for the lock-discipline trace. -/
def c8c : Client := { sid := "s8", uid := "u8", getBandWidth := fun _ => (4, 2) }

/-- Concrete engine holding the non-nil client `c8c`. -/
def eng8 : Engine := { cfg := {}, clients := [("s8", [("u8", some c8c)])], stats := ⟨0, 0, 0⟩ }

/-- Concrete engine with an empty registry, for a DelClient trace. -/
def eng8b : Engine := { cfg := {}, clients := [], stats := ⟨0, 0, 0⟩ }

/-- Concrete client stored at key (s9, u9). -/
def cw9 : Client := { sid := "s9", uid := "u9", getBandWidth := fun _ => (0, 0) }

/-- Concrete engine whose registry holds `cw9`. -/
def eng9 : Engine := { cfg := {}, clients := [("s9", [("u9", some cw9)])], stats := ⟨0, 0, 0⟩ }

/-- The engine reached from `eng9` after deleting `cw9`: the session key
s9 survives with an empty inner map. -/
def eng9b : Engine := { cfg := {}, clients := [("s9", [])], stats := ⟨0, 0, 0⟩ }

/-- Concrete non-nil client argument whose key (sA, uA) holds a nil entry. -/
def c10c : Client := { sid := "sA", uid := "uA", getBandWidth := fun _ => (0, 0) }

/-- Concrete engine whose registry stores a nil pointer at (sA, uA). -/
def eng10 : Engine := { cfg := {}, clients := [("sA", [("uA", none)])], stats := ⟨0, 0, 0⟩ }

/-- Looking a key up after an erase: the erased key is gone and every other
key is untouched. -/
theorem alookup_aerase {α : Type} (m : List (String × α)) (k key : String) :
    alookup (aerase m k) key = if key = k then none else alookup m key := by
  induction m with
  | nil => simp [aerase, alookup]
  | cons hd t ih =>
      obtain ⟨k1, v1⟩ := hd
      by_cases h1 : k1 = k
      · subst h1
        by_cases h2 : key = k1
        · subst h2
          simp [aerase, alookup, ih]
        · simp [aerase, alookup, h2, ih]
      · by_cases h2 : key = k1
        · subst h2
          simp [aerase, alookup, h1, ih]
        · simp [aerase, alookup, h1, h2, ih]

/-- Looking a key up after an insert: the inserted key has the new value
and every other key is untouched. -/
theorem alookup_ainsert {α : Type} (m : List (String × α)) (k key : String) (v : α) :
    alookup (ainsert m k v) key = if key = k then some v else alookup m key := by
  by_cases h : key = k <;> simp [ainsert, alookup, alookup_aerase, h]

/-- An insert never removes a key that was present. -/
theorem ainsert_keeps {α : Type} (m : List (String × α)) (k sid : String) (v : α)
    (h : alookup m sid ≠ none) : alookup (ainsert m k v) sid ≠ none := by
  rw [alookup_ainsert]
  by_cases hs : sid = k <;> simp [hs, h]

/-- A delete on an inner map never removes a key of the outer mapping. -/
theorem delInner_keeps (m : List (String × InnerMap)) (s u sid : String)
    (h : alookup m sid ≠ none) : alookup (delInner m s u) sid ≠ none := by
  cases hm : alookup m s with
  | none => simpa [delInner, hm] using h
  | some inner2 =>
      simp only [delInner, hm]
      exact ainsert_keeps _ _ _ _ h

/-- The client-count loop of Stats is the sum of the inner-map sizes. -/
theorem count_foldl (m : List (String × InnerMap)) (a : Nat) :
    m.foldl (fun acc p => acc + p.2.length) a = a + (m.map fun p => p.2.length).sum := by
  induction m generalizing a with
  | nil => simp
  | cons hd t ih =>
      rw [List.foldl_cons, ih, List.map_cons, List.sum_cons, Nat.add_assoc]

/-- The inner bandwidth loop of Stats over one session accumulates the two
sample sums of the session's non-nil clients and appends one sampling
event per non-nil client. -/
theorem bwFold_inner (cycle : Int) (inner : InnerMap) (a b : Int) (evs : List Ev) :
    inner.foldl (fun x q => bwStep cycle x q.2) (a, b, evs) =
      (a + sumRecvSamples cycle (innerClients inner),
       b + sumSendSamples cycle (innerClients inner),
       evs ++ (innerClients inner).map Ev.bwCall) := by
  induction inner generalizing a b evs with
  | nil => simp [innerClients, sumRecvSamples, sumSendSamples]
  | cons hd t ih =>
      obtain ⟨u, oc⟩ := hd
      cases oc with
      | none =>
          rw [List.foldl_cons]
          refine Eq.trans (ih a b evs) ?_
          simp [innerClients, List.filterMap_cons]
      | some c =>
          rw [List.foldl_cons]
          refine Eq.trans (ih (a + (c.getBandWidth cycle).1)
            (b + (c.getBandWidth cycle).2) (evs ++ [Ev.bwCall c])) ?_
          simp [innerClients, sumRecvSamples, sumSendSamples, add_assoc,
            List.filterMap_cons]

/-- The outer bandwidth loop of Stats accumulates the sample sums of every
non-nil client of the registry and appends one sampling event each. -/
theorem bwFold_outer (cycle : Int) (m : List (String × InnerMap)) (a b : Int) (evs : List Ev) :
    m.foldl (fun acc p => p.2.foldl (fun x q => bwStep cycle x q.2) acc) (a, b, evs) =
      (a + sumRecvSamples cycle (allClients m),
       b + sumSendSamples cycle (allClients m),
       evs ++ (allClients m).map Ev.bwCall) := by
  induction m generalizing a b evs with
  | nil => simp [allClients, sumRecvSamples, sumSendSamples]
  | cons hd t ih =>
      rw [List.foldl_cons, bwFold_inner, ih]
      simp [allClients, sumRecvSamples, sumSendSamples, add_assoc]

/-- No single registry operation ever writes the stats record. -/
theorem applyOp_stats (e e2 : Engine) (op : Op) (h : applyOp e op = some e2) :
    e2.stats = e.stats := by
  cases op with
  | add c =>
      cases c with
      | none => simp [applyOp, AddClient] at h
      | some cl =>
          simp only [applyOp, AddClient, Option.some.injEq, if_neg, Bool.false_eq_true,
            not_false_eq_true, if_false] at h
          rw [← h]
  | del c =>
      cases c with
      | none => simp [applyOp, DelClient] at h
      | some cl =>
          cases hm : alookup e.clients cl.sid with
          | none =>
              simp [applyOp, DelClient, hm] at h
              rw [← h]
          | some inner =>
              cases hu : alookup inner cl.uid with
              | none =>
                  simp [applyOp, DelClient, hm, hu] at h
                  rw [← h]
              | some oc =>
                  cases oc with
                  | none =>
                      simp [applyOp, DelClient, hm, hu] at h
                      rw [← h]
                  | some stored =>
                      simp [applyOp, DelClient, hm, hu] at h
                      rw [← h]
  | remove c =>
      cases c with
      | none => simp [applyOp, RemoveClient] at h
      | some cl =>
          cases hm : alookup e.clients cl.sid with
          | none =>
              simp [applyOp, RemoveClient, hm] at h
              rw [← h]
          | some inner =>
              cases hu : alookup inner cl.uid with
              | none =>
                  simp [applyOp, RemoveClient, hm, hu] at h
                  rw [← h]
              | some oc =>
                  cases oc with
                  | none =>
                      simp [applyOp, RemoveClient, hm, hu] at h
                      rw [← h]
                  | some stored =>
                      simp [applyOp, RemoveClient, hm, hu] at h
                      rw [← h]
  | statsOp cycle =>
      simp [applyOp] at h
      rw [← h]

/-- No sequence of registry operations ever writes the stats record. -/
theorem runOps_stats (ops : List Op) :
    ∀ e e2 : Engine, runOps e ops = some e2 → e2.stats = e.stats := by
  induction ops with
  | nil =>
      intro e e2 h
      simp [runOps] at h
      rw [← h]
  | cons op rest ih =>
      intro e e2 h
      cases hop : applyOp e op with
      | none => simp [runOps, hop] at h
      | some emid =>
          simp only [runOps, hop] at h
          rw [ih emid e2 h, applyOp_stats e emid op hop]

/-- No single registry operation ever removes a session key from the
outer mapping. -/
theorem applyOp_keeps_session (op : Op) (e e2 : Engine) (sid : String)
    (h : applyOp e op = some e2) (hk : alookup e.clients sid ≠ none) :
    alookup e2.clients sid ≠ none := by
  cases op with
  | add c =>
      cases c with
      | none => simp [applyOp, AddClient] at h
      | some cl =>
          simp only [applyOp, AddClient, Option.some.injEq, Bool.false_eq_true,
            not_false_eq_true, if_false] at h
          rw [← h]
          refine ainsert_keeps _ _ _ _ ?_
          by_cases hn : (alookup e.clients cl.sid).isNone
          · simpa [hn] using ainsert_keeps e.clients cl.sid sid [] hk
          · simpa [hn] using hk
  | del c =>
      cases c with
      | none => simp [applyOp, DelClient] at h
      | some cl =>
          cases hm : alookup e.clients cl.sid with
          | none =>
              simp [applyOp, DelClient, hm] at h
              rw [← h]; exact hk
          | some inner =>
              cases hu : alookup inner cl.uid with
              | none =>
                  simp [applyOp, DelClient, hm, hu] at h
                  rw [← h]; exact hk
              | some oc =>
                  cases oc with
                  | none =>
                      simp [applyOp, DelClient, hm, hu] at h
                      rw [← h]; exact hk
                  | some stored =>
                      simp [applyOp, DelClient, hm, hu] at h
                      rw [← h]
                      exact delInner_keeps _ _ _ _ hk
  | remove c =>
      cases c with
      | none => simp [applyOp, RemoveClient] at h
      | some cl =>
          cases hm : alookup e.clients cl.sid with
          | none =>
              simp [applyOp, RemoveClient, hm] at h
              rw [← h]; exact hk
          | some inner =>
              cases hu : alookup inner cl.uid with
              | none =>
                  simp [applyOp, RemoveClient, hm, hu] at h
                  rw [← h]; exact hk
              | some oc =>
                  cases oc with
                  | none =>
                      simp [applyOp, RemoveClient, hm, hu] at h
                      rw [← h]; exact hk
                  | some stored =>
                      simp [applyOp, RemoveClient, hm, hu] at h
                      rw [← h]
                      exact delInner_keeps _ _ _ _ hk
  | statsOp cycle =>
      simp [applyOp] at h
      rw [← h]; exact hk

/-- No sequence of registry operations ever removes a session key from
the outer mapping. -/
theorem runOps_keeps_session (ops : List Op) (sid : String) :
    ∀ e e2 : Engine, runOps e ops = some e2 → alookup e.clients sid ≠ none →
      alookup e2.clients sid ≠ none := by
  induction ops with
  | nil =>
      intro e e2 h hk
      simp [runOps] at h
      rw [← h]; exact hk
  | cons op rest ih =>
      intro e e2 h hk
      cases hop : applyOp e op with
      | none => simp [runOps, hop] at h
      | some emid =>
          simp only [runOps, hop] at h
          exact ih emid e2 h (applyOp_keeps_session op e emid sid hop hk)

/-- C1: the claim says AddClient on a nil client returns the InvalidClient
error with the registry unchanged, detecting nullity before any mutation.
On the code this fails: AddClient dereferences `c.sid` at line 49, so a nil
client panics before the nil check at line 54 can run (that check is
unreachable, and is in any case placed after the map insertion).  This
theorem evaluates the code at the failing input: the call panics with the
registry untouched and returns no error at all. -/
theorem c1_addClient_nil_panics (e : Engine) :
    AddClient e none =
      { panicked := true, engine := e, err := none, trace := [Ev.lock, Ev.unlock] } := rfl

/-- C2 counterexample: the claim quantifies over every registry state whose
mapping binds the key (client.sid, client.uid) to a non-null client, but
the shadowed `c` at engine.go line 70 makes the delete use the stored
client's own fields.  At a state storing under key (s2m, u2m) a client
whose own fields are (x2, y2), the delete misses: the first call leaves
the registry unchanged (the entry is not removed) while closing the stored
client, and the repeated call invokes teardown a second time — refuting
both the entry removal and the no-repeated-teardown parts of the claim. -/
theorem c2_counterexample :
    alookup2 engMis.clients cargMis.sid cargMis.uid = some (some cmis) ∧
    (DelClient engMis (some cargMis)).engine = engMis ∧
    alookup2 (DelClient engMis (some cargMis)).engine.clients cargMis.sid cargMis.uid =
      some (some cmis) ∧
    closesOf (DelClient engMis (some cargMis)).trace = [cmis] ∧
    closesOf (DelClient (DelClient engMis (some cargMis)).engine (some cargMis)).trace =
      [cmis] :=
  ⟨rfl, rfl, rfl, rfl, rfl⟩

/-- C2 (amended): on a key bound to a non-nil client whose own sid and uid
fields equal that key — which holds for every entry AddClient creates —
DelClient removes the entry and invokes exactly the removed (stored)
client's teardown; calling it again with the same key succeeds as a no-op,
changes nothing, and invokes no teardown.  (Without the field hypotheses
the shadowed delete at engine.go line 71 can miss the entry; see the
counterexample.) -/
theorem c2_del_removes_and_closes_once (e : Engine) (c stored : Client) (inner : InnerMap)
    (hs : alookup e.clients c.sid = some inner)
    (hu : alookup inner c.uid = some (some stored))
    (hsid : stored.sid = c.sid) (huid : stored.uid = c.uid) :
    (DelClient e (some c)).panicked = false ∧
    (DelClient e (some c)).err = none ∧
    closesOf (DelClient e (some c)).trace = [stored] ∧
    alookup2 (DelClient e (some c)).engine.clients c.sid c.uid = none ∧
    DelClient (DelClient e (some c)).engine (some c) =
      { panicked := false, engine := (DelClient e (some c)).engine, err := none,
        trace := [Ev.lock, Ev.unlock] } := by
  have hEq : DelClient e (some c) =
      { panicked := false,
        engine := { e with clients := ainsert e.clients c.sid (aerase inner c.uid) },
        err := none, trace := [Ev.lock, Ev.unlock, Ev.closeCall stored] } := by
    simp [DelClient, hs, hu, delInner, hsid, huid]
  rw [hEq]
  refine ⟨rfl, rfl, rfl, ?_, ?_⟩
  · simp [alookup2, alookup_ainsert, alookup_aerase]
  · simp [DelClient, alookup_ainsert, alookup_aerase]

/-- Closed witness for C2 (amended) at a concrete one-client registry whose
stored client's fields match its key. -/
theorem c2_witness :
    alookup eng2.clients cw2.sid = some inner2w ∧
    alookup inner2w cw2.uid = some (some cw2) ∧
    cw2.sid = cw2.sid ∧ cw2.uid = cw2.uid ∧
    ((DelClient eng2 (some cw2)).panicked = false ∧
     (DelClient eng2 (some cw2)).err = none ∧
     closesOf (DelClient eng2 (some cw2)).trace = [cw2] ∧
     alookup2 (DelClient eng2 (some cw2)).engine.clients cw2.sid cw2.uid = none ∧
     DelClient (DelClient eng2 (some cw2)).engine (some cw2) =
       { panicked := false, engine := (DelClient eng2 (some cw2)).engine, err := none,
         trace := [Ev.lock, Ev.unlock] }) :=
  ⟨rfl, rfl, rfl, rfl, c2_del_removes_and_closes_once eng2 cw2 cw2 inner2w rfl rfl rfl rfl⟩

/-- C3: DelClient and RemoveClient on a session identifier absent from the
outer mapping both return the errInvalidSessID (UnknownSession) error,
leave the registry unchanged, and invoke no teardown (their traces hold no
external call). -/
theorem c3_unknown_session_rejected (e : Engine) (c : Client)
    (h : alookup e.clients c.sid = none) :
    DelClient e (some c) =
      { panicked := false, engine := e, err := some EngErr.invalidSessID,
        trace := [Ev.lock, Ev.unlock] } ∧
    RemoveClient e (some c) =
      { panicked := false, engine := e, err := some EngErr.invalidSessID,
        trace := [Ev.lock, Ev.unlock] } := by
  constructor <;> simp [DelClient, RemoveClient, h]

/-- Closed witness for C3 at the fresh empty registry. -/
theorem c3_witness :
    alookup (NewEngine {}).clients c3c.sid = none ∧
    (DelClient (NewEngine {}) (some c3c) =
      { panicked := false, engine := NewEngine {}, err := some EngErr.invalidSessID,
        trace := [Ev.lock, Ev.unlock] } ∧
     RemoveClient (NewEngine {}) (some c3c) =
      { panicked := false, engine := NewEngine {}, err := some EngErr.invalidSessID,
        trace := [Ev.lock, Ev.unlock] }) :=
  ⟨rfl, c3_unknown_session_rejected (NewEngine {}) c3c rfl⟩

/-- C4: one aggregation pass of Stats over a non-empty registry reports
the client count as the sum of the inner-mapping sizes and the two
bandwidth totals as the sums of every non-nil client's sample taken with
the cycle as the interval, samples every non-nil client once, and then
sleeps for the cycle. -/
theorem c4_stats_aggregation (e : Engine) (cycle : Int) (h : e.clients ≠ []) :
    statsIter e cycle =
      { effect := IterEffect.report
          { clients := (e.clients.map fun p => p.2.length).sum,
            totalRecvBW := sumRecvSamples cycle (allClients e.clients),
            totalSendBW := sumSendSamples cycle (allClients e.clients) } cycle,
        trace := [Ev.rlock] ++ (allClients e.clients).map Ev.bwCall ++ [Ev.runlock] } := by
  have hlen : ¬ e.clients.length = 0 := by
    simpa [List.length_eq_zero] using h
  rw [statsIter, if_neg hlen]
  rw [bwFold_outer, count_foldl]
  simp

/-- Closed witness for C4: sessions A holding c1, c2 and B holding c3 with
samples (10,5), (20,15), (0,0) yield client count 3, total receive 30 and
total send 20. -/
theorem c4_witness :
    engineAB.clients ≠ [] ∧
    statsIter engineAB 5 =
      { effect := IterEffect.report { clients := 3, totalRecvBW := 30, totalSendBW := 20 } 5,
        trace := [Ev.rlock, Ev.bwCall c4c1, Ev.bwCall c4c2, Ev.bwCall c4c3, Ev.runlock] } :=
  ⟨List.cons_ne_nil _ _,
   Eq.trans (c4_stats_aggregation engineAB 5 (List.cons_ne_nil _ _)) (by rfl)⟩

/-- C5: AddClient on a key that is already bound overwrites the stored
entry with the new client and never invokes the previously stored
client's teardown (its trace holds no Close call). -/
theorem c5_add_overwrites_without_close (e : Engine) (c : Client) (v : Option Client)
    (h : alookup2 e.clients c.sid c.uid = some v) :
    (AddClient e (some c)).panicked = false ∧
    (AddClient e (some c)).err = none ∧
    closesOf (AddClient e (some c)).trace = [] ∧
    alookup2 (AddClient e (some c)).engine.clients c.sid c.uid = some (some c) := by
  cases hm : alookup e.clients c.sid with
  | none => simp [alookup2, hm] at h
  | some inner =>
      refine ⟨?_, ?_, ?_, ?_⟩ <;>
        simp [AddClient, closesOf, hm, alookup2, alookup_ainsert]

/-- Closed witness for C5: replacing the client stored at (s5, u5). -/
theorem c5_witness :
    alookup2 eng5.clients cNew.sid cNew.uid = some (some cOld) ∧
    ((AddClient eng5 (some cNew)).panicked = false ∧
     (AddClient eng5 (some cNew)).err = none ∧
     closesOf (AddClient eng5 (some cNew)).trace = [] ∧
     alookup2 (AddClient eng5 (some cNew)).engine.clients cNew.sid cNew.uid =
       some (some cNew)) :=
  ⟨rfl, c5_add_overwrites_without_close eng5 cNew (some cOld) rfl⟩

/-- C6: the stats record backing GetStat is never written by any registry
operation or Stats iteration, so on every engine state reachable from a
fresh engine by any operation sequence GetStat returns (0, 0, 0). -/
theorem c6_getStat_always_zero (cfg : Config) (ops : List Op) (e2 : Engine)
    (h : runOps (NewEngine cfg) ops = some e2) :
    GetStat e2 = (0, 0, 0) := by
  have hs := runOps_stats ops (NewEngine cfg) e2 h
  simp [GetStat, hs, NewEngine]

/-- Closed witness for C6: a run exercising add, stats, del and remove. -/
theorem c6_witness :
    runOps (NewEngine {}) opsW = some engW ∧ GetStat engW = (0, 0, 0) :=
  ⟨rfl, c6_getStat_always_zero {} opsW engW rfl⟩

/-- C7: a Stats iteration whose snapshot has zero sessions skips directly
to the next iteration: no report is produced and no sleep occurs (the
iteration effect is `skip`, which carries no report and no sleep). -/
theorem c7_empty_snapshot_skips (cfg : Config) (s : stat) (cycle : Int) :
    statsIter { cfg := cfg, clients := [], stats := s } cycle =
      { effect := IterEffect.skip, trace := [Ev.rlock, Ev.runlock] } := rfl

/-- C8 counterexample: the claim says the registry never holds its lock
across a call into a Client capability, but one Stats iteration over a
registry holding one non-nil client performs its bandwidth-sampling call
between RLock and RUnlock. -/
theorem c8_counterexample :
    callsInsideLock (statsIter eng8 1).trace 0 = true := rfl

/-- C8 (amended): DelClient indeed releases the exclusive lock before
invoking the removed client's teardown (its trace never performs an
external call inside the lock), but the Stats loop holds the shared
(read) lock across bandwidth sampling: whenever the snapshot holds at
least one non-nil client, a sampling call occurs inside the lock. -/
theorem c8_lock_scope_amended (e e2 : Engine) (oc : Option Client) (cycle : Int)
    (h : allClients e.clients ≠ []) :
    callsInsideLock (DelClient e2 oc).trace 0 = false ∧
    callsInsideLock (statsIter e cycle).trace 0 = true := by
  constructor
  · cases oc with
    | none => rfl
    | some cl =>
        cases hm : alookup e2.clients cl.sid with
        | none => simp [DelClient, hm, callsInsideLock]
        | some inner =>
            cases hu : alookup inner cl.uid with
            | none => simp [DelClient, hm, hu, callsInsideLock]
            | some oc2 =>
                cases oc2 with
                | none => simp [DelClient, hm, hu, callsInsideLock]
                | some stored => simp [DelClient, hm, hu, callsInsideLock]
  · have hne : e.clients ≠ [] := by
      intro hnil
      rw [hnil] at h
      exact h rfl
    have hlen : ¬ e.clients.length = 0 := by
      simpa [List.length_eq_zero] using hne
    rw [statsIter, if_neg hlen, bwFold_outer]
    obtain ⟨c, cs, hcs⟩ := List.exists_cons_of_ne_nil h
    rw [hcs]
    simp [callsInsideLock]

/-- Closed witness for C8 (amended) at concrete registries. -/
theorem c8_witness :
    allClients eng8.clients ≠ [] ∧
    (callsInsideLock (DelClient eng8b (some c8c)).trace 0 = false ∧
     callsInsideLock (statsIter eng8 3).trace 0 = true) := by
  have hne : allClients eng8.clients ≠ [] := by
    simp [allClients, innerClients, eng8]
  exact ⟨hne, c8_lock_scope_amended eng8 eng8b (some c8c) 3 hne⟩

/-- C9: a session key present in the outer mapping survives every sequence
of registry operations; DelClient and RemoveClient delete only inner
entries, so the key persists even once its inner mapping is empty. -/
theorem c9_session_keys_persist (e e2 : Engine) (ops : List Op) (sid : String)
    (h1 : alookup e.clients sid ≠ none) (h2 : runOps e ops = some e2) :
    alookup e2.clients sid ≠ none :=
  runOps_keeps_session ops sid e e2 h2 h1

/-- Closed witness for C9: deleting the only client of session s9 leaves
the session key bound to an empty inner map. -/
theorem c9_witness :
    alookup eng9.clients "s9" ≠ none ∧
    runOps eng9 [Op.del (some cw9)] = some eng9b ∧
    alookup eng9b.clients "s9" ≠ none := by
  have h1 : alookup eng9.clients "s9" ≠ none := by
    simp [eng9, alookup]
  exact ⟨h1, rfl, c9_session_keys_persist eng9 eng9b [Op.del (some cw9)] "s9" h1 rfl⟩

/-- C10: when the key of the (non-nil) argument is bound to a nil pointer,
DelClient and RemoveClient both succeed (nil error) while changing nothing
and invoking no teardown, so a nil-valued entry is never removed by either
removal operation. -/
theorem c10_nil_entry_never_removed (e : Engine) (c : Client) (inner : InnerMap)
    (hs : alookup e.clients c.sid = some inner)
    (hu : alookup inner c.uid = some none) :
    DelClient e (some c) =
      { panicked := false, engine := e, err := none, trace := [Ev.lock, Ev.unlock] } ∧
    RemoveClient e (some c) =
      { panicked := false, engine := e, err := none, trace := [Ev.lock, Ev.unlock] } := by
  constructor <;> simp [DelClient, RemoveClient, hs, hu]

/-- Closed witness for C10 at a registry storing a nil pointer at (sA, uA). -/
theorem c10_witness :
    alookup eng10.clients c10c.sid = some [("uA", (none : Option Client))] ∧
    alookup [("uA", (none : Option Client))] c10c.uid = some none ∧
    (DelClient eng10 (some c10c) =
       { panicked := false, engine := eng10, err := none, trace := [Ev.lock, Ev.unlock] } ∧
     RemoveClient eng10 (some c10c) =
       { panicked := false, engine := eng10, err := none, trace := [Ev.lock, Ev.unlock] }) :=
  ⟨rfl, rfl, c10_nil_entry_never_removed eng10 c10c [("uA", none)] rfl rfl⟩
